import Mathlib

/-!
# Verification of `clock_update.c` (Clock-Display)

Shallow embedding of the three functions of `src/clock_update.c`:
`set_tod_from_ports`, `set_display_from_tod` and `clock_update`, together
with theorems settling the specification claims about them.

Modelling conventions:
* C `int` values are modelled as `Int`.  Every arithmetic value computed by
  the program stays well inside the 32-bit range (the largest composed
  value is below `2^30`), so unbounded integers model the C arithmetic
  exactly, with no overflow to account for.
* All divisions, remainders and right shifts in the program are applied to
  operands that are non-negative at that point (guarded by the range
  checks), where C truncating division, Lean's Euclidean `Int` division
  and `Nat` division all coincide; `x >> 4` on a non-negative `int` is
  `x / 16`.
* The hardware port globals `TIME_OF_DAY_PORT` and `CLOCK_DISPLAY_PORT`
  are modelled as an explicit input parameter and an explicit
  previous-value/new-value pair.
* A C function that returns 1 and leaves its output untouched is modelled
  as returning `none`; success (return 0, output written) is `some`.
-/

/-- The `tod_t` structure.  Its declaration lives in `clock.h`, which is not
part of the sources; modelled from the spec: the TimeOfDay record with
integer fields `day_seconds`, `second`, `minute`, `hour`, `meridiem`
(field names follow the C code's accesses `tod->day_secs`, `tod->time_secs`,
`tod->time_mins`, `tod->time_hours`, `tod->ampm`). -/
structure tod_t where
  day_secs : Int
  time_secs : Int
  time_mins : Int
  time_hours : Int
  ampm : Int
deriving Repr, DecidableEq

/-- `set_tod_from_ports` (src/clock_update.c lines 27-54), with the
`TIME_OF_DAY_PORT` global passed as the parameter `port_val`.
`(port_val + 8) >> 4` is written `(port_val + 8) / 16`: after the range
check `port_val + 8` is non-negative, where the C right shift is exactly
division by `2^4`. -/
def set_tod_from_ports (port_val : Int) : Option tod_t :=
  if port_val < 0 ∨ port_val > 16 * 86400 then
    none
  else
    let day_secs : Int := (port_val + 8) / 16
    let hours0 : Int := (day_secs / 3600) % 24
    let time_hours : Int :=
      if hours0 = 0 then 12
      else if hours0 > 12 then hours0 - 12
      else hours0
    let time_mins : Int := (day_secs % 3600) / 60
    let time_secs : Int := day_secs % 60
    let ampm : Int := if day_secs ≥ 43200 then 2 else 1
    some ⟨day_secs, time_secs, time_mins, time_hours, ampm⟩

/-- The ten glyph bit masks of `set_display_from_tod`
(src/clock_update.c line 75), digits 0-9. -/
def mask : List Nat :=
  [0b1110111, 0b0100100, 0b1011101, 0b1101101, 0b0101110,
   0b1101011, 0b1111011, 0b0100101, 0b1111111, 0b1101111]

/-- The display composition of `set_display_from_tod`
(src/clock_update.c lines 82-103), after the range check has passed: at
that point `time_mins` and `time_hours` are non-negative, so the C `int`
divisions, shifts and bitwise ORs coincide with the `Nat` operations used
here.  `mins` and `hrs` are the (non-negative) field values, `am` is the
result of the C test `tod.ampm == 1`. -/
def displayBits (mins hrs : Nat) (am : Bool) : Nat :=
  let min_ones := mins % 10
  let min_tens := mins / 10
  let hrs_ones := hrs % 10
  let hrs_tens := hrs / 10
  let d0 : Nat := mask.getD min_ones 0
  let d1 : Nat :=
    if hrs_tens = 0 then
      ((mask.getD min_tens 0) <<< 7) ||| ((mask.getD hrs_ones 0) <<< 14) ||| d0
    else
      ((mask.getD min_tens 0) <<< 7) ||| ((mask.getD hrs_ones 0) <<< 14) |||
        ((mask.getD hrs_tens 0) <<< 21) ||| d0
  if am then (1 <<< 28) ||| d1 else (1 <<< 29) ||| d1

/-- `set_display_from_tod` (src/clock_update.c lines 73-106).  The range
check is exactly the C condition of line 78; on success the value written
through `display` is returned as `some`. -/
def set_display_from_tod (tod : tod_t) : Option Int :=
  if tod.time_secs < 0 ∨ tod.time_secs > 59 ∨ tod.time_mins < 0 ∨
      tod.time_mins > 59 ∨ tod.time_hours < 0 ∨ tod.time_hours > 12 ∨
      tod.ampm > 2 then
    none
  else
    some (Int.ofNat
      (displayBits tod.time_mins.toNat tod.time_hours.toNat (tod.ampm == 1)))

/-- `clock_update` (src/clock_update.c lines 120-130).  `port` is the value
read from `TIME_OF_DAY_PORT`, `prev` the current value of
`CLOCK_DISPLAY_PORT`; the result is the pair (return value, value of
`CLOCK_DISPLAY_PORT` after the call).  As in the C code, the local `ptr`
starts at 0 and the return value of `set_display_from_tod` is ignored, so
on (unreachable) encoder failure the display port would be set to 0. -/
def clock_update (port prev : Int) : Int × Int :=
  match set_tod_from_ports port with
  | none => (1, prev)
  | some tod =>
    let ptr : Int :=
      match set_display_from_tod tod with
      | none => 0
      | some d => d
    (0, ptr)

/-- The TimeOfDay invariants as the spec states them (§3): second and
minute in [0,59], hour in [1,12], meridiem one of AM (1), PM (2).
Stated from the spec's words, to be compared with the check the code
actually performs. -/
def tod_invariants (tod : tod_t) : Prop :=
  (0 ≤ tod.time_secs ∧ tod.time_secs ≤ 59) ∧
  (0 ≤ tod.time_mins ∧ tod.time_mins ≤ 59) ∧
  (1 ≤ tod.time_hours ∧ tod.time_hours ≤ 12) ∧
  (tod.ampm = 1 ∨ tod.ampm = 2)

instance (tod : tod_t) : Decidable (tod_invariants tod) := by
  unfold tod_invariants; infer_instance

/-! ## Helper lemmas -/

/-- The decoder fails exactly on out-of-range port values. -/
lemma decode_none_iff (raw : Int) :
    set_tod_from_ports raw = none ↔ (raw < 0 ∨ raw > 16 * 86400) := by
  unfold set_tod_from_ports
  split <;> simp_all

/-- On an in-range port value the decoder succeeds. -/
lemma decode_isSome {raw : Int} (h0 : 0 ≤ raw) (h1 : raw ≤ 16 * 86400) :
    ∃ tod, set_tod_from_ports raw = some tod := by
  unfold set_tod_from_ports
  rw [if_neg (by omega)]
  exact ⟨_, rfl⟩

/-- Inversion: a successful decode means the port was in range and every
field carries the value the source computes for it. -/
lemma decode_some_inv {raw : Int} {tod : tod_t}
    (h : set_tod_from_ports raw = some tod) :
    0 ≤ raw ∧ raw ≤ 16 * 86400 ∧
    tod.day_secs = (raw + 8) / 16 ∧
    tod.time_hours = (if (tod.day_secs / 3600) % 24 = 0 then 12
      else if (tod.day_secs / 3600) % 24 > 12 then (tod.day_secs / 3600) % 24 - 12
      else (tod.day_secs / 3600) % 24) ∧
    tod.time_mins = (tod.day_secs % 3600) / 60 ∧
    tod.time_secs = tod.day_secs % 60 ∧
    tod.ampm = (if tod.day_secs ≥ 43200 then 2 else 1) := by
  unfold set_tod_from_ports at h
  split at h
  · exact absurd h (by simp)
  · rename_i hrange
    rw [Option.some_inj] at h
    subst h
    refine ⟨by omega, by omega, rfl, rfl, rfl, rfl, rfl⟩

/-- Every TimeOfDay the decoder produces satisfies the spec invariants. -/
lemma decode_invariants {raw : Int} {tod : tod_t}
    (h : set_tod_from_ports raw = some tod) :
    tod_invariants tod := by
  obtain ⟨h0, h1, hds, hh, hm, hs, ha⟩ := decode_some_inv h
  have hbound : 0 ≤ tod.day_secs ∧ tod.day_secs ≤ 86400 := by omega
  unfold tod_invariants
  refine ⟨⟨by omega, by omega⟩, ⟨by omega, by omega⟩, ⟨?_, ?_⟩, ?_⟩
  · rw [hh]; split
    · omega
    · split <;> omega
  · rw [hh]; split
    · omega
    · split <;> omega
  · rw [ha]; split
    · right; rfl
    · left; rfl

/-- The encoder fails exactly when the C range check of line 78 fires. -/
lemma encode_none_iff (tod : tod_t) :
    set_display_from_tod tod = none ↔
      (tod.time_secs < 0 ∨ tod.time_secs > 59 ∨ tod.time_mins < 0 ∨
       tod.time_mins > 59 ∨ tod.time_hours < 0 ∨ tod.time_hours > 12 ∨
       tod.ampm > 2) := by
  unfold set_display_from_tod
  split <;> simp_all

/-- Inversion: a successful encode means the fields passed the range check
and the produced pattern is the bit composition of the source. -/
lemma encode_some_inv {tod : tod_t} {d : Int}
    (h : set_display_from_tod tod = some d) :
    0 ≤ tod.time_secs ∧ tod.time_secs ≤ 59 ∧ 0 ≤ tod.time_mins ∧
    tod.time_mins ≤ 59 ∧ 0 ≤ tod.time_hours ∧ tod.time_hours ≤ 12 ∧
    tod.ampm ≤ 2 ∧
    d = Int.ofNat
      (displayBits tod.time_mins.toNat tod.time_hours.toNat (tod.ampm == 1)) := by
  unfold set_display_from_tod at h
  split at h
  · exact absurd h (by simp)
  · rename_i hrange
    rw [Option.some_inj] at h
    refine ⟨by omega, by omega, by omega, by omega, by omega, by omega, by omega, h.symm⟩

/-- A TimeOfDay satisfying the spec invariants passes the encoder's check. -/
lemma encode_total_of_invariants {tod : tod_t} (h : tod_invariants tod) :
    ∃ d, set_display_from_tod tod = some d := by
  unfold tod_invariants at h
  unfold set_display_from_tod
  rw [if_neg (by omega)]
  exact ⟨_, rfl⟩

/-- Field extraction from the composed pattern, checked over the whole
domain the encoder can reach (minutes 0-59, hours 0-12, either meridiem
branch): bits 21-27 are zero for hours below 10 and the digit-1 glyph
otherwise, and bits 0-6, 7-13, 14-20 hold the three other glyphs. -/
lemma displayBits_fields : ∀ m < 60, ∀ h < 13, ∀ b : Bool,
    ((displayBits m h b) >>> 21) &&& 127 = (if h < 10 then 0 else mask.getD 1 0) ∧
    (displayBits m h b) &&& 127 = mask.getD (m % 10) 0 ∧
    ((displayBits m h b) >>> 7) &&& 127 = mask.getD (m / 10) 0 ∧
    ((displayBits m h b) >>> 14) &&& 127 = mask.getD (h % 10) 0 := by decide

/-- Meridiem bits of the composed pattern, over the same domain: bit 28
mirrors the `ampm == 1` test and bit 29 is its negation. -/
lemma displayBits_meridiem : ∀ m < 60, ∀ h < 13, ∀ b : Bool,
    (displayBits m h b).testBit 28 = b ∧
    (displayBits m h b).testBit 29 = !b := by decide

/-! ## Claim theorems -/

/-- C1 counterexample: at the boundary port value `16 * 86400` the decoder
does produce `day_secs = 86400`, but it sets `ampm = 2` (PM), not AM (1) as
the claim states: `day_secs = 86400` satisfies the `day_secs >= 43200` test
of line 47, so the PM branch is taken. -/
theorem c1_counterexample :
    (set_tod_from_ports (16 * 86400)).map tod_t.ampm = some 2 ∧ (2 : Int) ≠ 1 := by
  decide

/-- C1 (amended): for every raw port value in `[16*86400 - 8, 16*86400]`
the decoder succeeds with `day_secs` exactly 86400, which the modulo-24
hour computation folds back to hour 12 — but with `meridiem = PM` (2),
since `86400 >= 43200`. -/
theorem c1_midnight_wrap (raw : Int)
    (h0 : 16 * 86400 - 8 ≤ raw) (h1 : raw ≤ 16 * 86400) :
    set_tod_from_ports raw = some ⟨86400, 0, 0, 12, 2⟩ := by
  have hd : (raw + 8) / 16 = 86400 := by omega
  unfold set_tod_from_ports
  rw [if_neg (by omega), hd]
  decide

/-- C1 witness: the amended theorem applied at the right endpoint. -/
theorem c1_witness :
    set_tod_from_ports (16 * 86400) = some ⟨86400, 0, 0, 12, 2⟩ :=
  c1_midnight_wrap (16 * 86400) (by decide) (by decide)

/-- C2 counterexample: the TimeOfDay with hour 0 (and second 0, minute 0,
meridiem AM) violates the spec invariant `hour ∈ [1,12]`, yet the encoder
accepts it: line 78 checks `time_hours < 0`, not `time_hours < 1`. -/
theorem c2_counterexample :
    ¬ tod_invariants ⟨0, 0, 0, 0, 1⟩ ∧
    (set_display_from_tod ⟨0, 0, 0, 0, 1⟩).isSome = true := by
  decide

/-- C2 (amended): the encoder returns the error result (modelled as `none`,
the output untouched) iff second outside [0,59], minute outside [0,59],
hour outside [0,12] (hour 0 is accepted), or `ampm > 2` (every
`ampm ≤ 2`, including 0 and negatives, is accepted); otherwise it
succeeds. -/
theorem c2_validation (tod : tod_t) :
    set_display_from_tod tod = none ↔
      ¬ (0 ≤ tod.time_secs ∧ tod.time_secs ≤ 59 ∧ 0 ≤ tod.time_mins ∧
         tod.time_mins ≤ 59 ∧ 0 ≤ tod.time_hours ∧ tod.time_hours ≤ 12 ∧
         tod.ampm ≤ 2) := by
  rw [encode_none_iff]
  omega

/-- C2 witness: a minute of 60 is rejected. -/
theorem c2_witness : set_display_from_tod ⟨0, 0, 60, 0, 1⟩ = none :=
  (c2_validation ⟨0, 0, 60, 0, 1⟩).mpr (by decide)

/-- C3: the decoder succeeds iff `0 ≤ raw ≤ 16*86400`, in which case
`day_secs ∈ [0, 86400]`; outside that range it returns the error result
and writes nothing (modelled as `none`). -/
theorem c3_decode_range (raw : Int) :
    ((0 ≤ raw ∧ raw ≤ 16 * 86400) →
      ∃ tod, set_tod_from_ports raw = some tod ∧
        0 ≤ tod.day_secs ∧ tod.day_secs ≤ 86400) ∧
    ((raw < 0 ∨ raw > 16 * 86400) → set_tod_from_ports raw = none) := by
  constructor
  · rintro ⟨h0, h1⟩
    obtain ⟨tod, htod⟩ := decode_isSome h0 h1
    obtain ⟨-, -, hds, -⟩ := decode_some_inv htod
    exact ⟨tod, htod, by omega, by omega⟩
  · intro h
    exact (decode_none_iff raw).mpr h

/-- C3 witness: both branches of the theorem at concrete ports. -/
theorem c3_witness :
    (∃ tod, set_tod_from_ports 8 = some tod ∧
      0 ≤ tod.day_secs ∧ tod.day_secs ≤ 86400) ∧
    set_tod_from_ports (-1) = none :=
  ⟨(c3_decode_range 8).1 ⟨by decide, by decide⟩,
   (c3_decode_range (-1)).2 (by decide)⟩

/-- C4: on every valid port value, `day_secs = (raw + 8) >> 4` is `raw/16`
rounded to the nearest integer with ties rounding up; in particular
raw 15 gives 1, raw 8 gives 1 and raw 7 gives 0. -/
theorem c4_rounding :
    (∀ raw : Int, 0 ≤ raw → raw ≤ 16 * 86400 →
      ∃ tod, set_tod_from_ports raw = some tod ∧
        tod.day_secs = (if 8 ≤ raw % 16 then raw / 16 + 1 else raw / 16)) ∧
    (set_tod_from_ports 15).map tod_t.day_secs = some 1 ∧
    (set_tod_from_ports 8).map tod_t.day_secs = some 1 ∧
    (set_tod_from_ports 7).map tod_t.day_secs = some 0 := by
  refine ⟨?_, by decide, by decide, by decide⟩
  intro raw h0 h1
  obtain ⟨tod, htod⟩ := decode_isSome h0 h1
  obtain ⟨-, -, hds, -⟩ := decode_some_inv htod
  refine ⟨tod, htod, ?_⟩
  rw [hds]
  split <;> omega

/-- C4 witness: the tie case raw = 8 rounds up to 1 second. -/
theorem c4_witness :
    ∃ tod, set_tod_from_ports 8 = some tod ∧
      tod.day_secs = (if 8 ≤ (8 : Int) % 16 then 8 / 16 + 1 else 8 / 16) :=
  c4_rounding.1 8 (by decide) (by decide)

/-- C5: on every successful decode the fields are derived from `day_secs`
by the stated formulas (24-hour value folded to 12-hour form, minute and
second by division and remainder, PM exactly when `day_secs ≥ 43200`), and
the four sample points decode as claimed: midnight to 12 AM, 3600 s to
1 AM, 43200 s to 12 PM, 46800 s to 1 PM. -/
theorem c5_field_derivation :
    (∀ (raw : Int) (tod : tod_t), set_tod_from_ports raw = some tod →
      tod.time_hours = (if (tod.day_secs / 3600) % 24 = 0 then 12
        else if (tod.day_secs / 3600) % 24 > 12 then (tod.day_secs / 3600) % 24 - 12
        else (tod.day_secs / 3600) % 24) ∧
      tod.time_mins = (tod.day_secs % 3600) / 60 ∧
      tod.time_secs = tod.day_secs % 60 ∧
      (tod.ampm = 2 ↔ tod.day_secs ≥ 43200) ∧
      (tod.ampm = 1 ↔ tod.day_secs < 43200)) ∧
    set_tod_from_ports 0 = some ⟨0, 0, 0, 12, 1⟩ ∧
    set_tod_from_ports (16 * 3600) = some ⟨3600, 0, 0, 1, 1⟩ ∧
    set_tod_from_ports (16 * 43200) = some ⟨43200, 0, 0, 12, 2⟩ ∧
    set_tod_from_ports (16 * 46800) = some ⟨46800, 0, 0, 1, 2⟩ := by
  refine ⟨?_, by decide, by decide, by decide, by decide⟩
  intro raw tod h
  obtain ⟨-, -, -, hh, hm, hs, ha⟩ := decode_some_inv h
  refine ⟨hh, hm, hs, ?_, ?_⟩ <;> rw [ha] <;> split <;> omega

/-- C5 witness: the derivation formulas at the noon boundary port. -/
theorem c5_witness :
    (⟨43200, 0, 0, 12, 2⟩ : tod_t).time_hours =
      (if (((43200 : Int)) / 3600) % 24 = 0 then 12
        else if (((43200 : Int)) / 3600) % 24 > 12 then (((43200 : Int)) / 3600) % 24 - 12
        else (((43200 : Int)) / 3600) % 24) ∧
    (⟨43200, 0, 0, 12, 2⟩ : tod_t).time_mins = (((43200 : Int)) % 3600) / 60 ∧
    (⟨43200, 0, 0, 12, 2⟩ : tod_t).time_secs = ((43200 : Int)) % 60 ∧
    ((⟨43200, 0, 0, 12, 2⟩ : tod_t).ampm = 2 ↔ ((43200 : Int)) ≥ 43200) ∧
    ((⟨43200, 0, 0, 12, 2⟩ : tod_t).ampm = 1 ↔ ((43200 : Int)) < 43200) :=
  c5_field_derivation.1 (16 * 43200) ⟨43200, 0, 0, 12, 2⟩ (by decide)

/-- C6: every TimeOfDay the decoder produces satisfies the type invariant:
hour in [1,12], minute and second in [0,59], ampm 1 or 2. -/
theorem c6_decoder_invariants (raw : Int) (tod : tod_t)
    (h : set_tod_from_ports raw = some tod) :
    tod_invariants tod :=
  decode_invariants h

/-- C6 witness: the invariant holds for the decode of port 0. -/
theorem c6_witness : tod_invariants ⟨0, 0, 0, 12, 1⟩ :=
  c6_decoder_invariants 0 ⟨0, 0, 0, 12, 1⟩ (by decide)

/-- C7: in every accepted encoding, bits 21-27 are all zero exactly when
hour < 10 and hold the digit-1 glyph when hour ≥ 10, and the other glyphs
sit at bit offsets 0 (ones of minutes), 7 (tens of minutes) and
14 (ones of hours). -/
theorem c7_glyph_placement (tod : tod_t) (d : Int)
    (h : set_display_from_tod tod = some d) :
    ((d.toNat >>> 21) &&& 127 = (if tod.time_hours < 10 then 0 else mask.getD 1 0)) ∧
    (d.toNat &&& 127 = mask.getD (tod.time_mins % 10).toNat 0) ∧
    ((d.toNat >>> 7) &&& 127 = mask.getD (tod.time_mins / 10).toNat 0) ∧
    ((d.toNat >>> 14) &&& 127 = mask.getD (tod.time_hours % 10).toNat 0) := by
  obtain ⟨hs0, hs1, hm0, hm1, hh0, hh1, ha, hd⟩ := encode_some_inv h
  subst hd
  have hmlt : tod.time_mins.toNat < 60 := by omega
  have hhlt : tod.time_hours.toNat < 13 := by omega
  obtain ⟨k1, k2, k3, k4⟩ :=
    displayBits_fields tod.time_mins.toNat hmlt tod.time_hours.toNat hhlt (tod.ampm == 1)
  have e1 : (tod.time_mins % 10).toNat = tod.time_mins.toNat % 10 := by omega
  have e2 : (tod.time_mins / 10).toNat = tod.time_mins.toNat / 10 := by omega
  have e3 : (tod.time_hours % 10).toNat = tod.time_hours.toNat % 10 := by omega
  have e0 : (Int.ofNat
      (displayBits tod.time_mins.toNat tod.time_hours.toNat (tod.ampm == 1))).toNat =
      displayBits tod.time_mins.toNat tod.time_hours.toNat (tod.ampm == 1) := rfl
  rw [e0, e1, e2, e3]
  refine ⟨?_, k2, k3, k4⟩
  rcases lt_or_le tod.time_hours 10 with hlt | hge
  · rw [if_pos hlt, k1, if_pos (by omega)]
  · rw [if_neg (by omega), k1, if_neg (by omega)]

/-- C7 witness: at 11:05 AM the tens-of-hours field holds the digit-1
glyph (hour 11 ≥ 10). -/
theorem c7_witness :
    ((Int.ofNat (displayBits 5 11 true)).toNat >>> 21) &&& 127 =
      (if (11 : Int) < 10 then 0 else mask.getD 1 0) :=
  (c7_glyph_placement ⟨0, 0, 5, 11, 1⟩ (Int.ofNat (displayBits 5 11 true))
    (by decide)).1

/-- C8: in every successful encoding exactly one of bits 28 and 29 is set,
bit 28 when `ampm` is AM (1) and bit 29 when `ampm` is PM (2). -/
theorem c8_meridiem_bits (tod : tod_t) (d : Int)
    (h : set_display_from_tod tod = some d) :
    (d.toNat.testBit 28 || d.toNat.testBit 29) = true ∧
    (d.toNat.testBit 28 && d.toNat.testBit 29) = false ∧
    (tod.ampm = 1 → d.toNat.testBit 28 = true) ∧
    (tod.ampm = 2 → d.toNat.testBit 29 = true) := by
  obtain ⟨hs0, hs1, hm0, hm1, hh0, hh1, ha, hd⟩ := encode_some_inv h
  subst hd
  have hmlt : tod.time_mins.toNat < 60 := by omega
  have hhlt : tod.time_hours.toNat < 13 := by omega
  obtain ⟨k28, k29⟩ :=
    displayBits_meridiem tod.time_mins.toNat hmlt tod.time_hours.toNat hhlt (tod.ampm == 1)
  have e0 : (Int.ofNat
      (displayBits tod.time_mins.toNat tod.time_hours.toNat (tod.ampm == 1))).toNat =
      displayBits tod.time_mins.toNat tod.time_hours.toNat (tod.ampm == 1) := rfl
  rw [e0, k28, k29]
  refine ⟨?_, ?_, ?_, ?_⟩
  · cases tod.ampm == 1 <;> rfl
  · cases tod.ampm == 1 <;> rfl
  · intro h1
    rw [h1]
    rfl
  · intro h2
    rw [h2]
    rfl

/-- C8 witness: for the 11:05 AM encoding at least one meridiem bit is
set (and the theorem pins down which). -/
theorem c8_witness :
    ((Int.ofNat (displayBits 5 11 true)).toNat.testBit 28 ||
     (Int.ofNat (displayBits 5 11 true)).toNat.testBit 29) = true :=
  (c8_meridiem_bits ⟨0, 0, 5, 11, 1⟩ (Int.ofNat (displayBits 5 11 true))
    (by decide)).1

/-- C9: on an out-of-range port value `clock_update` returns 1 and leaves
the display port at its previous value; on an in-range value it writes the
encoded pattern of the decoded time and returns 0. -/
theorem c9_controller (port prev : Int) :
    ((port < 0 ∨ port > 16 * 86400) → clock_update port prev = (1, prev)) ∧
    ((0 ≤ port ∧ port ≤ 16 * 86400) →
      ∃ tod d, set_tod_from_ports port = some tod ∧
        set_display_from_tod tod = some d ∧
        clock_update port prev = (0, d)) := by
  constructor
  · intro h
    unfold clock_update
    rw [(decode_none_iff port).mpr h]
  · rintro ⟨h0, h1⟩
    obtain ⟨tod, htod⟩ := decode_isSome h0 h1
    obtain ⟨d, hd⟩ := encode_total_of_invariants (decode_invariants htod)
    refine ⟨tod, d, htod, hd, ?_⟩
    simp [clock_update, htod, hd]

/-- C9 witness: both controller branches at concrete ports, with a prior
display pattern that survives the failing call. -/
theorem c9_witness :
    clock_update (-1) 5 = (1, 5) ∧
    (∃ tod d, set_tod_from_ports 0 = some tod ∧
      set_display_from_tod tod = some d ∧ clock_update 0 7 = (0, d)) :=
  ⟨(c9_controller (-1) 5).1 (by decide),
   (c9_controller 0 7).2 ⟨by decide, by decide⟩⟩

/-- C10: for every TimeOfDay the encoder accepts, the four glyph-table
indices `time_mins % 10`, `time_mins / 10`, `time_hours % 10` and
`time_hours / 10` all lie in [0, 9], within the 10-element mask table. -/
theorem c10_indices_in_bounds (tod : tod_t) (d : Int)
    (h : set_display_from_tod tod = some d) :
    (0 ≤ tod.time_mins % 10 ∧ tod.time_mins % 10 ≤ 9) ∧
    (0 ≤ tod.time_mins / 10 ∧ tod.time_mins / 10 ≤ 9) ∧
    (0 ≤ tod.time_hours % 10 ∧ tod.time_hours % 10 ≤ 9) ∧
    (0 ≤ tod.time_hours / 10 ∧ tod.time_hours / 10 ≤ 9) ∧
    mask.length = 10 := by
  obtain ⟨hs0, hs1, hm0, hm1, hh0, hh1, -, -⟩ := encode_some_inv h
  refine ⟨⟨by omega, by omega⟩, ⟨by omega, by omega⟩,
    ⟨by omega, by omega⟩, ⟨by omega, by omega⟩, by decide⟩

/-- C10 witness: the bounds at the 11:05 AM encoding. -/
theorem c10_witness :
    (0 ≤ (⟨0, 0, 5, 11, 1⟩ : tod_t).time_mins % 10 ∧
      (⟨0, 0, 5, 11, 1⟩ : tod_t).time_mins % 10 ≤ 9) ∧
    (0 ≤ (⟨0, 0, 5, 11, 1⟩ : tod_t).time_mins / 10 ∧
      (⟨0, 0, 5, 11, 1⟩ : tod_t).time_mins / 10 ≤ 9) ∧
    (0 ≤ (⟨0, 0, 5, 11, 1⟩ : tod_t).time_hours % 10 ∧
      (⟨0, 0, 5, 11, 1⟩ : tod_t).time_hours % 10 ≤ 9) ∧
    (0 ≤ (⟨0, 0, 5, 11, 1⟩ : tod_t).time_hours / 10 ∧
      (⟨0, 0, 5, 11, 1⟩ : tod_t).time_hours / 10 ≤ 9) ∧
    mask.length = 10 :=
  c10_indices_in_bounds ⟨0, 0, 5, 11, 1⟩ (Int.ofNat (displayBits 5 11 true))
    (by decide)
